import Mathlib

/-!
Verification of `src/paperless_mail/mail.py` (paperless-ngx mail ingestion).

The Python module is shallowly embedded: rules, actions and messages become
Lean structures; the IMAP search-criteria dict becomes an association list
over a fixed key enumeration; side effects on the mailbox (flag / move /
delete / raw commands) become explicit command lists; exceptions become
`Except String`.  External collaborators (libmagic mime sniffing, the
`is_mime_type_supported` capability, network success/failure of the IMAP
calls) are parameters of the embedded functions.
-/

namespace PaperlessMail

/-- Keys of the search-criteria dict built by `make_criterias` and the
`get_criteria` methods (the full, fixed key set of the source). -/
inductive CritKey
  | date_gte
  | from_
  | subject
  | body
  | seen
  | flagged
  | no_keyword
  | gmail_label
deriving DecidableEq, Repr

/-- Values stored in the criteria dict: a date (modelled as a day number,
`date.today() - timedelta(days=...)` becomes integer subtraction), a string,
or a boolean. -/
inductive CritVal
  | dateVal (d : Int)
  | strVal (s : String)
  | boolVal (b : Bool)
deriving DecidableEq, Repr

/-- `MailRule.AttachmentProcessing` choices. -/
inductive AttachmentProcessing
  | attachmentsOnly
  | everything
deriving DecidableEq, Repr

/-- `MailRule.MailAction` choices. -/
inductive MailActionKind
  | flag
  | delete
  | move
  | markRead
  | tag
deriving DecidableEq, Repr

/-- The fields of the Django `MailRule` model that the mail handler reads.
Nullable/blank char fields are `Option String` (Python truthiness treats
`None` and `""` alike, see `optFilterCrit`). -/
structure MailRule where
  folder : String
  order : Nat
  maximum_age : Nat
  filter_from : Option String
  filter_subject : Option String
  filter_body : Option String
  filter_attachment_filename : Option String
  attachment_type : AttachmentProcessing
  action : MailActionKind
  action_parameter : String
deriving DecidableEq, Repr

/-- `get_criteria` of the five `BaseMailAction` subclasses, dispatched on the
action kind (`get_rule_action`): `MarkReadMailAction` contributes
`seen: False`, `FlagMailAction` contributes `flagged: False`,
`TagMailAction(param)` contributes `no_keyword: param, gmail_label: param`,
`MoveMailAction` and `DeleteMailAction` contribute nothing. -/
def get_criteria (a : MailActionKind) (param : String) : List (CritKey × CritVal) :=
  match a with
  | .flag => [(.flagged, .boolVal false)]
  | .delete => []
  | .move => []
  | .markRead => [(.seen, .boolVal false)]
  | .tag => [(.no_keyword, .strVal param), (.gmail_label, .strVal param)]

/-- One optional text filter of the rule: the Python `if rule.filter_x:`
guard adds the entry only when the field is neither null nor empty. -/
def optFilterCrit (k : CritKey) : Option String → List (CritKey × CritVal)
  | none => []
  | some s => if s.isEmpty then [] else [(k, .strVal s)]

/-- The `date_gte` entry: `today - timedelta(days=rule.maximum_age)`, added
only when `rule.maximum_age > 0`. -/
def ageCrit (today : Int) (rule : MailRule) : List (CritKey × CritVal) :=
  if 0 < rule.maximum_age then
    [(.date_gte, .dateVal (today - (rule.maximum_age : Int)))]
  else []

/-- The flat criteria dict built from the rule's own filters, before the
action's criteria are merged in (`criterias` local of `make_criterias`):
`date_gte = today - maximum_age` only when `maximum_age > 0`, then the
`from_` / `subject` / `body` contains-filters when truthy.  `today` is the
current day number. -/
def ruleFilterCrits (today : Int) (rule : MailRule) : List (CritKey × CritVal) :=
  ageCrit today rule
  ++ optFilterCrit .from_ rule.filter_from
  ++ optFilterCrit .subject rule.filter_subject
  ++ optFilterCrit .body rule.filter_body

/-- `make_criterias(rule)`: the rule's filter criteria merged with the bound
action's criteria.  The Python merge is a dict union whose key sets are
disjoint, so it is concatenation of the association lists. -/
def make_criterias (today : Int) (rule : MailRule) : List (CritKey × CritVal) :=
  ruleFilterCrits today rule ++ get_criteria rule.action rule.action_parameter

end PaperlessMail

namespace PaperlessMail

lemma mem_optFilterCrit_key {kv : CritKey × CritVal} {k : CritKey} {o : Option String}
    (h : kv ∈ optFilterCrit k o) : kv.1 = k := by
  cases o with
  | none => simp [optFilterCrit] at h
  | some s =>
    simp only [optFilterCrit] at h
    split at h
    · simp at h
    · simp at h
      simp [h]

lemma lookup_append (k : CritKey) (l₁ l₂ : List (CritKey × CritVal)) :
    List.lookup k (l₁ ++ l₂) =
      (List.lookup k l₁).orElse (fun _ => List.lookup k l₂) := by
  induction l₁ with
  | nil => simp [List.lookup]
  | cons kv rest ih =>
    by_cases h : k = kv.1
    · simp [List.lookup, h.symm]
    · have hb : (k == kv.1) = false := by simpa using h
      simp [List.lookup, hb, ih]

lemma lookup_eq_none_of_keys (k : CritKey) (l : List (CritKey × CritVal))
    (h : ∀ kv ∈ l, kv.1 ≠ k) : List.lookup k l = none := by
  induction l with
  | nil => simp [List.lookup]
  | cons kv rest ih =>
    have hk : kv.1 ≠ k := h kv (List.mem_cons_self kv rest)
    have hb : (k == kv.1) = false := by
      simp only [beq_eq_false_iff_ne, ne_eq]
      exact fun hkk => hk hkk.symm
    simp only [List.lookup, hb]
    exact ih (fun kv' h' => h kv' (List.mem_cons_of_mem kv h'))

lemma lookup_optFilterCrit_self (k : CritKey) (o : Option String) :
    List.lookup k (optFilterCrit k o) =
      match o with
      | none => none
      | some s => if s.isEmpty then none else some (.strVal s) := by
  cases o with
  | none => simp [optFilterCrit, List.lookup]
  | some s =>
    by_cases h : s.isEmpty <;> simp [optFilterCrit, List.lookup, h]

lemma lookup_optFilterCrit_ne (k k' : CritKey) (o : Option String) (h : k ≠ k') :
    List.lookup k (optFilterCrit k' o) = none := by
  refine lookup_eq_none_of_keys k _ (fun kv hkv => ?_)
  rw [mem_optFilterCrit_key hkv]
  exact fun hk => h hk.symm

lemma mem_get_criteria_key {kv : CritKey × CritVal} {a : MailActionKind} {p : String}
    (h : kv ∈ get_criteria a p) :
    kv.1 = .seen ∨ kv.1 = .flagged ∨ kv.1 = .no_keyword ∨ kv.1 = .gmail_label := by
  cases a <;> simp [get_criteria] at h
  · simp [h]
  · simp [h]
  · rcases h with h | h <;> simp [h]

lemma lookup_get_criteria_of_filterKey (k : CritKey) (a : MailActionKind) (p : String)
    (hk : k = .date_gte ∨ k = .from_ ∨ k = .subject ∨ k = .body) :
    List.lookup k (get_criteria a p) = none := by
  refine lookup_eq_none_of_keys k _ (fun kv hkv => ?_)
  rcases mem_get_criteria_key hkv with h | h | h | h <;>
    rcases hk with hk | hk | hk | hk <;> simp [h, hk]

lemma lookup_ageCrit_self (today : Int) (rule : MailRule) :
    List.lookup CritKey.date_gte (ageCrit today rule) =
      if 0 < rule.maximum_age then
        some (.dateVal (today - (rule.maximum_age : Int)))
      else none := by
  unfold ageCrit
  split <;> simp [List.lookup]

lemma lookup_ageCrit_ne (k : CritKey) (today : Int) (rule : MailRule)
    (h : k ≠ .date_gte) : List.lookup k (ageCrit today rule) = none := by
  refine lookup_eq_none_of_keys k _ (fun kv hkv => ?_)
  unfold ageCrit at hkv
  split at hkv
  · simp only [List.mem_singleton] at hkv
    subst hkv
    exact fun hk => h hk.symm
  · simp at hkv

/-- Claim C1: `make_criterias` contains a `date_gte` lower bound equal to
today minus `maximum_age` days exactly when `maximum_age > 0`, contains the
`from_` / `subject` / `body` contains-filters exactly when the corresponding
rule filter is present (non-null, non-empty), and is the rule's flat filter
criteria merged with the bound action's criteria: `seen: False` for
MarkRead, `flagged: False` for Flag, nothing for Move and Delete, and the
`no_keyword` / `gmail_label` keyword entries for Tag. -/
theorem make_criterias_spec (today : Int) (rule : MailRule) :
    (List.lookup CritKey.date_gte (make_criterias today rule)
        = if 0 < rule.maximum_age then
            some (.dateVal (today - (rule.maximum_age : Int)))
          else none)
    ∧ (List.lookup CritKey.from_ (make_criterias today rule)
        = match rule.filter_from with
          | none => none
          | some s => if s.isEmpty then none else some (.strVal s))
    ∧ (List.lookup CritKey.subject (make_criterias today rule)
        = match rule.filter_subject with
          | none => none
          | some s => if s.isEmpty then none else some (.strVal s))
    ∧ (List.lookup CritKey.body (make_criterias today rule)
        = match rule.filter_body with
          | none => none
          | some s => if s.isEmpty then none else some (.strVal s))
    ∧ make_criterias today rule
        = ruleFilterCrits today rule ++ get_criteria rule.action rule.action_parameter
    ∧ get_criteria .markRead rule.action_parameter = [(.seen, .boolVal false)]
    ∧ get_criteria .flag rule.action_parameter = [(.flagged, .boolVal false)]
    ∧ get_criteria .move rule.action_parameter = []
    ∧ get_criteria .delete rule.action_parameter = []
    ∧ get_criteria .tag rule.action_parameter
        = [(.no_keyword, .strVal rule.action_parameter),
           (.gmail_label, .strVal rule.action_parameter)] := by
  refine ⟨?_, ?_, ?_, ?_, rfl, rfl, rfl, rfl, rfl, rfl⟩
  · have hrest : List.lookup CritKey.date_gte
        (optFilterCrit .from_ rule.filter_from ++
          (optFilterCrit .subject rule.filter_subject ++
            (optFilterCrit .body rule.filter_body ++
              get_criteria rule.action rule.action_parameter))) = none := by
      rw [lookup_append, lookup_optFilterCrit_ne _ _ _ (by decide),
        lookup_append, lookup_optFilterCrit_ne _ _ _ (by decide),
        lookup_append, lookup_optFilterCrit_ne _ _ _ (by decide),
        lookup_get_criteria_of_filterKey _ _ _ (Or.inl rfl)]
      rfl
    simp only [make_criterias, ruleFilterCrits, List.append_assoc]
    rw [lookup_append, lookup_ageCrit_self, hrest]
    by_cases h : 0 < rule.maximum_age <;> simp [h, Option.orElse]
  · have hrest : List.lookup CritKey.from_
        (optFilterCrit .subject rule.filter_subject ++
          (optFilterCrit .body rule.filter_body ++
            get_criteria rule.action rule.action_parameter)) = none := by
      rw [lookup_append, lookup_optFilterCrit_ne _ _ _ (by decide),
        lookup_append, lookup_optFilterCrit_ne _ _ _ (by decide),
        lookup_get_criteria_of_filterKey _ _ _ (Or.inr (Or.inl rfl))]
      rfl
    simp only [make_criterias, ruleFilterCrits, List.append_assoc]
    rw [lookup_append, lookup_ageCrit_ne _ _ _ (by decide),
      lookup_append, lookup_optFilterCrit_self, hrest]
    cases rule.filter_from with
    | none => rfl
    | some s => by_cases h : s.isEmpty <;> simp [h, Option.orElse]
  · have hrest : List.lookup CritKey.subject
        (optFilterCrit .body rule.filter_body ++
          get_criteria rule.action rule.action_parameter) = none := by
      rw [lookup_append, lookup_optFilterCrit_ne _ _ _ (by decide),
        lookup_get_criteria_of_filterKey _ _ _ (Or.inr (Or.inr (Or.inl rfl)))]
      rfl
    simp only [make_criterias, ruleFilterCrits, List.append_assoc]
    rw [lookup_append, lookup_ageCrit_ne _ _ _ (by decide),
      lookup_append, lookup_optFilterCrit_ne _ _ _ (by decide),
      lookup_append, lookup_optFilterCrit_self, hrest]
    cases rule.filter_subject with
    | none => rfl
    | some s => by_cases h : s.isEmpty <;> simp [h, Option.orElse]
  · simp only [make_criterias, ruleFilterCrits, List.append_assoc]
    rw [lookup_append, lookup_ageCrit_ne _ _ _ (by decide),
      lookup_append, lookup_optFilterCrit_ne _ _ _ (by decide),
      lookup_append, lookup_optFilterCrit_ne _ _ _ (by decide),
      lookup_append, lookup_optFilterCrit_self,
      lookup_get_criteria_of_filterKey _ _ _ (Or.inr (Or.inr (Or.inr rfl)))]
    cases rule.filter_body with
    | none => rfl
    | some s => by_cases h : s.isEmpty <;> simp [h, Option.orElse]

/-- The IMAP search criteria value passed to `M.fetch`: an `AND(...)` node
holding `NOT(key=value)` sub-clauses (from positional `NOT(...)` arguments)
plus flat keyword criteria. -/
structure ImapQuery where
  negated : List (CritKey × CritVal)
  flat : List (CritKey × CritVal)
deriving DecidableEq, Repr

/-- `del criterias[k]` on the association list (keys are unique, so
filtering removes exactly the one entry). -/
def eraseKey (k : CritKey) (l : List (CritKey × CritVal)) : List (CritKey × CritVal) :=
  l.filter (fun kv => kv.1 != k)

/-- Lines 278-282 of `handle_mail_rule`: start from `AND(**criterias)`; if
`gmail_label` is among the criteria, delete it from the flat dict and
re-express it as `AND(NOT(gmail_label=...), **criterias)`. -/
def buildQuery (crits : List (CritKey × CritVal)) : ImapQuery :=
  match List.lookup .gmail_label crits with
  | some v => ⟨[(.gmail_label, v)], eraseKey .gmail_label crits⟩
  | none => ⟨[], crits⟩

lemma mem_ruleFilterCrits_key {kv : CritKey × CritVal} {today : Int} {rule : MailRule}
    (h : kv ∈ ruleFilterCrits today rule) :
    kv.1 = .date_gte ∨ kv.1 = .from_ ∨ kv.1 = .subject ∨ kv.1 = .body := by
  simp only [ruleFilterCrits, List.append_assoc, List.mem_append] at h
  rcases h with h | h | h | h
  · unfold ageCrit at h
    split at h
    · simp only [List.mem_singleton] at h
      simp [h]
    · simp at h
  · exact Or.inr (Or.inl (mem_optFilterCrit_key h))
  · exact Or.inr (Or.inr (Or.inl (mem_optFilterCrit_key h)))
  · exact Or.inr (Or.inr (Or.inr (mem_optFilterCrit_key h)))

lemma lookup_ruleFilterCrits_actionKey (k : CritKey) (today : Int) (rule : MailRule)
    (hk : k = .seen ∨ k = .flagged ∨ k = .no_keyword ∨ k = .gmail_label) :
    List.lookup k (ruleFilterCrits today rule) = none := by
  refine lookup_eq_none_of_keys k _ (fun kv hkv => ?_)
  rcases mem_ruleFilterCrits_key hkv with h | h | h | h <;>
    rcases hk with hk | hk | hk | hk <;> simp [h, hk]

lemma eraseKey_ruleFilterCrits (k : CritKey) (today : Int) (rule : MailRule)
    (hk : k = .seen ∨ k = .flagged ∨ k = .no_keyword ∨ k = .gmail_label) :
    eraseKey k (ruleFilterCrits today rule) = ruleFilterCrits today rule := by
  unfold eraseKey
  rw [List.filter_eq_self]
  intro kv hkv
  rcases mem_ruleFilterCrits_key hkv with h | h | h | h <;>
    rcases hk with hk | hk | hk | hk <;> simp [h, hk]

/-- Claim C2: for a rule whose action is Tag with keyword `k`, the criteria
passed to `fetch` are `AND(NOT(gmail_label = k), <other flat criteria>)`:
the `gmail_label` entry is deleted from the flat dict and becomes the
negated sub-clause, while `no_keyword = k` stays in the flat dict. -/
theorem tag_query_spec (today : Int) (rule : MailRule) (h : rule.action = .tag) :
    buildQuery (make_criterias today rule)
      = ⟨[(.gmail_label, .strVal rule.action_parameter)],
         ruleFilterCrits today rule ++ [(.no_keyword, .strVal rule.action_parameter)]⟩
    ∧ List.lookup CritKey.no_keyword (buildQuery (make_criterias today rule)).flat
        = some (.strVal rule.action_parameter)
    ∧ List.lookup CritKey.gmail_label (buildQuery (make_criterias today rule)).flat
        = none := by
  have hlook : List.lookup CritKey.gmail_label (make_criterias today rule)
      = some (.strVal rule.action_parameter) := by
    unfold make_criterias
    rw [lookup_append,
      lookup_ruleFilterCrits_actionKey _ _ _ (Or.inr (Or.inr (Or.inr rfl))), h]
    rfl
  have herase : eraseKey .gmail_label (make_criterias today rule)
      = ruleFilterCrits today rule ++ [(.no_keyword, .strVal rule.action_parameter)] := by
    unfold make_criterias
    rw [h]
    show eraseKey .gmail_label (ruleFilterCrits today rule
        ++ [(.no_keyword, .strVal rule.action_parameter),
            (.gmail_label, .strVal rule.action_parameter)]) = _
    have h2 := eraseKey_ruleFilterCrits CritKey.gmail_label today rule
      (Or.inr (Or.inr (Or.inr rfl)))
    unfold eraseKey at h2 ⊢
    rw [List.filter_append, h2]
    rfl
  have hq : buildQuery (make_criterias today rule)
      = ⟨[(.gmail_label, .strVal rule.action_parameter)],
         ruleFilterCrits today rule ++ [(.no_keyword, .strVal rule.action_parameter)]⟩ := by
    unfold buildQuery
    rw [hlook, herase]
  refine ⟨hq, ?_, ?_⟩
  · rw [hq]
    show List.lookup CritKey.no_keyword
      (ruleFilterCrits today rule ++ [(.no_keyword, .strVal rule.action_parameter)]) = _
    rw [lookup_append,
      lookup_ruleFilterCrits_actionKey _ _ _ (Or.inr (Or.inr (Or.inl rfl)))]
    rfl
  · rw [hq]
    show List.lookup CritKey.gmail_label
      (ruleFilterCrits today rule ++ [(.no_keyword, .strVal rule.action_parameter)]) = _
    rw [lookup_append,
      lookup_ruleFilterCrits_actionKey _ _ _ (Or.inr (Or.inr (Or.inr rfl)))]
    rfl

/-- A concrete Tag rule used to witness the Tag-specific claims. -/
def cRuleTag : MailRule :=
  { folder := "INBOX"
    order := 0
    maximum_age := 30
    filter_from := some "billing@example.com"
    filter_subject := none
    filter_body := none
    filter_attachment_filename := none
    attachment_type := .everything
    action := .tag
    action_parameter := "Invoices" }

/-- Witness for claim C2: the Tag query shape at a concrete rule. -/
theorem tag_query_spec_witness :
    cRuleTag.action = .tag
    ∧ (buildQuery (make_criterias 19000 cRuleTag)
        = ⟨[(.gmail_label, .strVal cRuleTag.action_parameter)],
           ruleFilterCrits 19000 cRuleTag
             ++ [(.no_keyword, .strVal cRuleTag.action_parameter)]⟩
      ∧ List.lookup CritKey.no_keyword (buildQuery (make_criterias 19000 cRuleTag)).flat
          = some (.strVal cRuleTag.action_parameter)
      ∧ List.lookup CritKey.gmail_label (buildQuery (make_criterias 19000 cRuleTag)).flat
          = none) :=
  ⟨rfl, tag_query_spec 19000 cRuleTag rfl⟩

/-- A server-side mutation issued to the mailbox during `post_consume`:
`M.flag`, `M.move`, `M.delete`, or a raw `M.client.uid(...)` command. -/
inductive MailCommand
  | flagCmd (uids : List String) (flags : List String) (value : Bool)
  | moveCmd (uids : List String) (folder : String)
  | deleteCmd (uids : List String)
  | rawUidStore (uid : String) (cmd : String) (arg : String)
deriving DecidableEq, Repr

/-- Whether a command is a standard flag call. -/
def MailCommand.isFlagCmd : MailCommand → Bool
  | .flagCmd _ _ _ => true
  | _ => false

/-- The host test of `TagMailAction.post_consume`:
`re.search(r"gmail\x5c.com$|googlemail\x5c.com$", M._host)` — a suffix match
against the two known Gmail domains. -/
def gmailHostMatch (host : String) : Bool :=
  ("gmail.com".toList.isSuffixOf host.toList)
    || ("googlemail.com".toList.isSuffixOf host.toList)

namespace TagMailAction

/-- `TagMailAction.post_consume`: on a Gmail host, one raw
`UID STORE <uid> X-GM-LABELS <keyword>` per uid; otherwise a single flag
call setting the keyword on the whole batch. -/
def post_consume (keyword host : String) (message_uids : List String) :
    List MailCommand :=
  if gmailHostMatch host then
    message_uids.map (fun uid => .rawUidStore uid "X-GM-LABELS" keyword)
  else
    [.flagCmd message_uids [keyword] true]

end TagMailAction

/-- `post_consume` of the five `BaseMailAction` subclasses dispatched on the
action kind, as the list of mailbox commands issued. `MailMessageFlags.SEEN`
and `.FLAGGED` are the IMAP system flags. -/
def post_consume_commands (a : MailActionKind) (param host : String)
    (message_uids : List String) : List MailCommand :=
  match a with
  | .flag => [.flagCmd message_uids ["\\Flagged"] true]
  | .delete => [.deleteCmd message_uids]
  | .move => [.moveCmd message_uids param]
  | .markRead => [.flagCmd message_uids ["\\Seen"] true]
  | .tag => TagMailAction.post_consume param host message_uids

/-- Claim C3: for a Tag action with keyword `k`: on a host that
suffix-matches a Gmail domain, `post_consume` issues exactly one raw
`UID STORE <uid> X-GM-LABELS <k>` per uid of the batch and no standard flag
command; on any other host it issues a single flag call setting `k` on the
whole batch. -/
theorem tag_post_consume_spec (keyword host : String) (uids : List String) :
    (gmailHostMatch host = true →
      TagMailAction.post_consume keyword host uids
          = uids.map (fun uid => MailCommand.rawUidStore uid "X-GM-LABELS" keyword)
        ∧ (TagMailAction.post_consume keyword host uids).length = uids.length
        ∧ ∀ c ∈ TagMailAction.post_consume keyword host uids, c.isFlagCmd = false)
    ∧ (gmailHostMatch host = false →
      TagMailAction.post_consume keyword host uids
          = [.flagCmd uids [keyword] true])
    ∧ gmailHostMatch "imap.gmail.com" = true
    ∧ gmailHostMatch "imap.googlemail.com" = true
    ∧ gmailHostMatch "imap.example.com" = false := by
  refine ⟨fun h => ?_, fun h => ?_, by decide, by decide, by decide⟩
  · have heq : TagMailAction.post_consume keyword host uids
        = uids.map (fun uid => MailCommand.rawUidStore uid "X-GM-LABELS" keyword) := by
      unfold TagMailAction.post_consume
      rw [h]
      rfl
    refine ⟨heq, by simp [heq], fun c hc => ?_⟩
    rw [heq] at hc
    rcases List.mem_map.mp hc with ⟨uid, _, hceq⟩
    rw [← hceq]
    rfl
  · unfold TagMailAction.post_consume
    rw [h]
    rfl

/-- Witness for claim C3: concrete Gmail and non-Gmail hosts with a
two-element uid batch. -/
theorem tag_post_consume_spec_witness :
    (gmailHostMatch "imap.gmail.com" = true →
      TagMailAction.post_consume "Invoices" "imap.gmail.com" ["7", "9"]
          = (["7", "9"]).map
              (fun uid => MailCommand.rawUidStore uid "X-GM-LABELS" "Invoices")
        ∧ (TagMailAction.post_consume "Invoices" "imap.gmail.com" ["7", "9"]).length
            = (["7", "9"] : List String).length
        ∧ ∀ c ∈ TagMailAction.post_consume "Invoices" "imap.gmail.com" ["7", "9"],
            c.isFlagCmd = false)
    ∧ (gmailHostMatch "imap.gmail.com" = false →
      TagMailAction.post_consume "Invoices" "imap.gmail.com" ["7", "9"]
          = [.flagCmd ["7", "9"] ["Invoices"] true])
    ∧ gmailHostMatch "imap.gmail.com" = true
    ∧ gmailHostMatch "imap.googlemail.com" = true
    ∧ gmailHostMatch "imap.example.com" = false :=
  tag_post_consume_spec "Invoices" "imap.gmail.com" ["7", "9"]

/-- Glob matching of Python's `fnmatch.fnmatch` restricted to the `*`, `?`
and literal pattern elements, fuel-indexed so it is structurally recursive
(each call strictly shrinks `pattern.length + name.length`, so the fuel used
by `fnmatch` below is always sufficient). -/
def globMatchFuel : Nat → List Char → List Char → Bool
  | 0, _, _ => false
  | fuel + 1, pat, name =>
    match pat, name with
    | [], n => n.isEmpty
    | '*' :: ps, n =>
      globMatchFuel fuel ps n ||
        (match n with
         | [] => false
         | _ :: cs => globMatchFuel fuel ('*' :: ps) cs)
    | '?' :: _, [] => false
    | '?' :: ps, _ :: cs => globMatchFuel fuel ps cs
    | _ :: _, [] => false
    | p :: ps, c :: cs => p == c && globMatchFuel fuel ps cs

/-- `fnmatch(name, pat)` of the Python standard library (on a
case-sensitive filesystem `normcase` is the identity, so it is pure glob
matching). -/
def fnmatch (name pat : String) : Bool :=
  globMatchFuel (pat.length + name.length + 1) pat.toList name.toList

/-- Python's `str.lower()` (characterwise ASCII lowercasing, matching
`Char.toLower` on the character list). -/
def strLower (s : String) : String :=
  ⟨s.data.map Char.toLower⟩

/-- The filename filter applied by `handle_message`: both the attachment
filename and the configured pattern are forced to lowercase before the
`fnmatch` call. -/
def filenameMatches (pat filename : String) : Bool :=
  fnmatch (strLower filename) (strLower pat)

/-- Python truthiness of an optional text field: false for null and for the
empty string. -/
def truthy : Option String → Bool
  | none => false
  | some s => !s.isEmpty

/-- An attachment of a fetched message: filename, declared
content-disposition, declared content type (never trusted), raw payload
bytes. -/
structure Attachment where
  filename : String
  content_disposition : String
  content_type : String
  payload : List UInt8
deriving DecidableEq, Repr

/-- A fetched IMAP message: folder-scoped uid and its attachment parts. -/
structure Message where
  uid : String
  attachments : List Attachment
deriving DecidableEq, Repr

/-- The per-attachment accept/skip decision of `handle_message`
(lines 359-429): skip non-`attachment` dispositions when the rule is
restricted to attachments only, skip filename-glob mismatches, then accept
exactly when the mime type sniffed from the payload bytes is supported.
`sniff` models `magic.from_buffer(..., mime=True)` and `supported` models
`is_mime_type_supported`, both external capabilities. -/
def acceptAttachment (sniff : List UInt8 → String) (supported : String → Bool)
    (rule : MailRule) (att : Attachment) : Bool :=
  if att.content_disposition != "attachment"
      && rule.attachment_type == AttachmentProcessing.attachmentsOnly then
    false
  else if truthy rule.filter_attachment_filename
      && !filenameMatches (rule.filter_attachment_filename.getD "") att.filename then
    false
  else
    supported (sniff att.payload)

/-- `handle_message`: a message without attachments returns 0 immediately;
otherwise the count of attachments accepted (each accepted one is
dispatched to the ingestion queue). -/
def handle_message (sniff : List UInt8 → String) (supported : String → Bool)
    (rule : MailRule) (message : Message) : Nat :=
  if message.attachments.isEmpty then 0
  else message.attachments.countP (acceptAttachment sniff supported rule)

/-- The per-message loop of `handle_mail_rule` (lines 305-318): returns the
`post_consume_messages` uid batch (uids of messages with at least one
processed file, in fetch order) and `total_processed_files`. -/
def processMessages (sniff : List UInt8 → String) (supported : String → Bool)
    (rule : MailRule) : List Message → List String × Nat
  | [] => ([], 0)
  | m :: ms =>
    let n := handle_message sniff supported rule m
    let rest := processMessages sniff supported rule ms
    (if 0 < n then m.uid :: rest.1 else rest.1, n + rest.2)

/-- Claim C4: the uid batch handed to `post_consume` consists exactly of
the uids of fetched messages whose attachment pipeline dispatched at least
one attachment, and the total is the sum of the per-message counts; a
message with no attachments counts 0, and a message all of whose
attachments are skipped counts 0 (and hence neither enters the batch). -/
theorem post_consume_batch_spec (sniff : List UInt8 → String)
    (supported : String → Bool) (rule : MailRule) (msgs : List Message)
    (mEmpty mSkip : Message) (hEmpty : mEmpty.attachments = [])
    (hSkip : ∀ att ∈ mSkip.attachments,
      acceptAttachment sniff supported rule att = false) :
    (processMessages sniff supported rule msgs).1
        = (msgs.filter
            (fun m => decide (0 < handle_message sniff supported rule m))).map
            Message.uid
    ∧ (processMessages sniff supported rule msgs).2
        = (msgs.map (handle_message sniff supported rule)).sum
    ∧ handle_message sniff supported rule mEmpty = 0
    ∧ handle_message sniff supported rule mSkip = 0 := by
  refine ⟨?_, ?_, ?_, ?_⟩
  · induction msgs with
    | nil => rfl
    | cons m ms ih =>
      by_cases h : 0 < handle_message sniff supported rule m <;>
        simp [processMessages, List.filter, h, ih]
  · induction msgs with
    | nil => rfl
    | cons m ms ih => simp [processMessages, ih]
  · simp [handle_message, hEmpty]
  · unfold handle_message
    split
    · rfl
    · exact List.countP_eq_zero.mpr (by simpa using hSkip)

/-- Mime sniffer used in witnesses: recognises the `%PDF` payload prefix,
anything else is reported as a generic binary type. -/
def cSniff (payload : List UInt8) : String :=
  if payload.take 4 = [37, 80, 68, 70] then "application/pdf"
  else "application/octet-stream"

/-- Supported-format allowlist used in witnesses: only PDF. -/
def cSupported (mime : String) : Bool :=
  mime == "application/pdf"

/-- A rule restricted to `attachment`-disposition parts, no filename glob. -/
def cRuleAttach : MailRule :=
  { folder := "INBOX"
    order := 1
    maximum_age := 0
    filter_from := none
    filter_subject := none
    filter_body := none
    filter_attachment_filename := none
    attachment_type := .attachmentsOnly
    action := .markRead
    action_parameter := "" }

/-- A message with no attachments. -/
def cMsgEmpty : Message := ⟨"101", []⟩

/-- A message with one supported PDF attachment. -/
def cMsgGood : Message :=
  ⟨"102", [⟨"invoice.pdf", "attachment", "application/octet-stream",
    [37, 80, 68, 70, 10]⟩]⟩

/-- A message whose only attachment is skipped (inline disposition under an
attachments-only rule). -/
def cMsgSkip : Message :=
  ⟨"103", [⟨"logo.png", "inline", "image/png", [137, 80, 78, 71]⟩]⟩

/-- Witness for claim C4: at the concrete three-message run, only the PDF
message's uid enters the batch and the total is 1. -/
theorem post_consume_batch_spec_witness :
    (processMessages cSniff cSupported cRuleAttach [cMsgEmpty, cMsgGood, cMsgSkip]).1
        = ([cMsgEmpty, cMsgGood, cMsgSkip].filter
            (fun m => decide (0 < handle_message cSniff cSupported cRuleAttach m))).map
            Message.uid
    ∧ (processMessages cSniff cSupported cRuleAttach [cMsgEmpty, cMsgGood, cMsgSkip]).2
        = ([cMsgEmpty, cMsgGood, cMsgSkip].map
            (handle_message cSniff cSupported cRuleAttach)).sum
    ∧ handle_message cSniff cSupported cRuleAttach cMsgEmpty = 0
    ∧ handle_message cSniff cSupported cRuleAttach cMsgSkip = 0 :=
  post_consume_batch_spec cSniff cSupported cRuleAttach
    [cMsgEmpty, cMsgGood, cMsgSkip] cMsgEmpty cMsgSkip (by decide) (by decide)

/-- Claim C8: the filename filter decision equals `fnmatch` of the
lowercased filename against the lowercased pattern, hence it is invariant
under changing the case of either the pattern or the filename; `*.PDF`
matches `invoice.pdf`; and a filename-glob mismatch makes the attachment
decision a skip. -/
theorem filename_match_case_insensitive (sniff : List UInt8 → String)
    (supported : String → Bool) (rule : MailRule) (att : Attachment)
    (p p' f f' : String)
    (hp : strLower p = strLower p') (hf : strLower f = strLower f')
    (hfa : rule.filter_attachment_filename = some p) (hpe : p.isEmpty = false)
    (hfm : filenameMatches p att.filename = false) :
    filenameMatches p f = fnmatch (strLower f) (strLower p)
    ∧ filenameMatches p f = filenameMatches p' f'
    ∧ filenameMatches "*.PDF" "invoice.pdf" = true
    ∧ acceptAttachment sniff supported rule att = false := by
  refine ⟨rfl, ?_, by decide, ?_⟩
  · unfold filenameMatches fnmatch
    rw [hp, hf]
  · unfold acceptAttachment
    split
    · rfl
    · rw [hfa]
      simp [truthy, hpe, hfm]

/-- Witness for claim C8: `*.PDF` vs `*.pdf` and `invoice.pdf` vs
`INVOICE.pdf` at a rule filtering on `*.PDF` and an attachment named
`photo.png`. -/
theorem filename_match_case_insensitive_witness :
    filenameMatches "*.PDF" "invoice.pdf"
        = fnmatch (strLower "invoice.pdf") (strLower "*.PDF")
    ∧ filenameMatches "*.PDF" "invoice.pdf" = filenameMatches "*.pdf" "INVOICE.pdf"
    ∧ filenameMatches "*.PDF" "invoice.pdf" = true
    ∧ acceptAttachment cSniff cSupported
        { cRuleAttach with filter_attachment_filename := some "*.PDF" }
        ⟨"photo.png", "attachment", "image/png", [137, 80, 78, 71]⟩ = false :=
  filename_match_case_insensitive cSniff cSupported
    { cRuleAttach with filter_attachment_filename := some "*.PDF" }
    ⟨"photo.png", "attachment", "image/png", [137, 80, 78, 71]⟩
    "*.PDF" "*.pdf" "invoice.pdf" "INVOICE.pdf"
    (by decide) (by decide) rfl (by decide) (by decide)

/-- Claim C9: the accept/skip decision never reads the attachment's
declared content type: changing only `content_type` (of one attachment, or
of every attachment of a message) leaves the decision and the processed
count unchanged; and an attachment declared `application/octet-stream`
whose payload bytes sniff as a supported type is dispatched. -/
theorem mime_sniff_only (sniff : List UInt8 → String) (supported : String → Bool)
    (rule : MailRule) (att : Attachment) (ct : String)
    (g : Attachment → String) (m : Message)
    (hdisp : att.content_disposition = "attachment")
    (hglob : rule.filter_attachment_filename = none)
    (hct : att.content_type = "application/octet-stream")
    (hsup : supported (sniff att.payload) = true) :
    acceptAttachment sniff supported rule
        { att with content_type := ct }
      = acceptAttachment sniff supported rule att
    ∧ handle_message sniff supported rule
        { m with attachments :=
            m.attachments.map (fun a => { a with content_type := g a }) }
      = handle_message sniff supported rule m
    ∧ acceptAttachment sniff supported rule att = true := by
  refine ⟨rfl, ?_, ?_⟩
  · have hmap : List.countP (acceptAttachment sniff supported rule)
        (m.attachments.map (fun a => { a with content_type := g a }))
        = List.countP (acceptAttachment sniff supported rule) m.attachments := by
      rw [List.countP_map]
      exact List.countP_congr (fun a _ => Iff.rfl)
    have hempty : (m.attachments.map
        (fun a => { a with content_type := g a })).isEmpty = m.attachments.isEmpty := by
      cases m.attachments <;> rfl
    unfold handle_message
    simp only [hmap, hempty]
  · unfold acceptAttachment
    rw [hdisp, hglob]
    simp [truthy, hsup]

/-- Witness for claim C9: a PDF payload declared as a generic binary type
is dispatched, and redeclaring content types changes nothing. -/
theorem mime_sniff_only_witness :
    acceptAttachment cSniff cSupported cRuleAttach
        { filename := "invoice.pdf", content_disposition := "attachment"
          content_type := "text/plain", payload := [37, 80, 68, 70, 10] }
      = acceptAttachment cSniff cSupported cRuleAttach
          ⟨"invoice.pdf", "attachment", "application/octet-stream",
            [37, 80, 68, 70, 10]⟩
    ∧ handle_message cSniff cSupported cRuleAttach
        { cMsgGood with attachments :=
            cMsgGood.attachments.map (fun a => { a with content_type := "text/plain" }) }
      = handle_message cSniff cSupported cRuleAttach cMsgGood
    ∧ acceptAttachment cSniff cSupported cRuleAttach
        ⟨"invoice.pdf", "attachment", "application/octet-stream",
          [37, 80, 68, 70, 10]⟩ = true :=
  mime_sniff_only cSniff cSupported cRuleAttach
    ⟨"invoice.pdf", "attachment", "application/octet-stream", [37, 80, 68, 70, 10]⟩
    "text/plain" (fun _ => "text/plain") cMsgGood rfl rfl rfl (by decide)

/-- Outcome of the initial `M.login` call, as far as the handler's control
flow distinguishes it: success, a `UnicodeEncodeError` (non-ASCII
credentials), or any other exception. -/
inductive LoginOutcome
  | success
  | unicodeEncodeError
  | otherError
deriving DecidableEq, Repr

/-- Observable outcome of a successful authentication: the SASL PLAIN
payload transmitted by the fallback (if it ran) and whether the fallback's
explicit `M.folder.set("INBOX")` transition happened. -/
structure AuthTrace where
  plainSent : Option (List UInt8)
  inboxSelected : Bool
deriving DecidableEq, Repr

/-- The SASL PLAIN message of the fallback:
`b"\x5c0" + username.encode("utf8") + b"\x5c0" + password.encode("utf8")`. -/
def sasl_plain_bytes (username password : String) : List UInt8 :=
  [0] ++ username.toUTF8.toList ++ [0] ++ password.toUTF8.toList

/-- The authentication block of `handle_mail_account` (lines 185-222):
standard login; on `UnicodeEncodeError` only, fall back to SASL PLAIN and
then select INBOX (`plainOk` abstracts whether the fallback's
`client.authenticate` and folder selection succeed); a failed fallback or
any other login exception raises `MailError` naming the account. -/
def authenticate (account username password : String)
    (login : LoginOutcome) (plainOk : Bool) : Except String AuthTrace :=
  match login with
  | .success => .ok ⟨none, false⟩
  | .unicodeEncodeError =>
    if plainOk then .ok ⟨some (sasl_plain_bytes username password), true⟩
    else .error ("Error while authenticating account " ++ account)
  | .otherError => .error ("Error while authenticating account " ++ account)

/-- One rule execution's inputs: the rule, whether folder selection and the
fetch call succeed, the fetched messages, and whether the post-consume
action call succeeds. -/
structure RuleRun where
  rule : MailRule
  folderOk : Bool
  fetchOk : Bool
  msgs : List Message
  postConsumeOk : Bool

/-- `handle_mail_rule`: select folder (a `MailboxFolderSelectError` becomes
a rule-fatal `MailError`), build the criteria and the IMAP query, fetch
(failure is rule-fatal), run the per-message pipeline, then run the action's
post-consume effect on the recorded uid batch (failure is rule-fatal,
raised after the messages were already processed); on success return the
rule's total processed-file count. -/
def handle_mail_rule (sniff : List UInt8 → String) (supported : String → Bool)
    (today : Int) (r : RuleRun) : Except String Nat :=
  if r.folderOk then
    let criterias := make_criterias today r.rule
    let _criterias_imap := buildQuery criterias
    if r.fetchOk then
      let res := processMessages sniff supported r.rule r.msgs
      if r.postConsumeOk then .ok res.2
      else .error "Rule: Error while processing post-consume actions"
    else .error ("Rule: Error while fetching folder " ++ r.rule.folder)
  else .error ("Rule: Folder " ++ r.rule.folder ++ " does not exist in account")

/-- The per-rule loop of `handle_mail_account` (lines 230-238): each rule's
exception is caught and logged, and the successful rules' counts are
summed. -/
def runRules : List (Except String Nat) → Nat
  | [] => 0
  | .ok n :: rest => n + runRules rest
  | .error _ :: rest => runRules rest

/-- Ascending ordering of rules by their `order` field
(`account.rules.order_by("order")`). -/
def ruleLE (a b : RuleRun) : Prop :=
  a.rule.order ≤ b.rule.order

instance : DecidableRel ruleLE :=
  fun a b => Nat.decLe a.rule.order b.rule.order

instance : IsTotal RuleRun ruleLE :=
  ⟨fun a b => Nat.le_total a.rule.order b.rule.order⟩

instance : IsTrans RuleRun ruleLE :=
  ⟨fun _ _ _ => Nat.le_trans⟩

/-- `account.rules.order_by("order")`: the rules in ascending order. -/
def sortRules (rules : List RuleRun) : List RuleRun :=
  List.insertionSort ruleLE rules

/-- `handle_mail_account`: swallow a mailbox-open failure (count 0);
authenticate (a failure propagates as `MailError`); iterate the rules in
ascending order, catching per-rule errors; a non-`MailError` session error
after `abortAfter` rules is swallowed, yielding the count accumulated so
far.  `openOk` abstracts `get_mailbox` / context-entry success. -/
def handle_mail_account (sniff : List UInt8 → String) (supported : String → Bool)
    (today : Int) (account username password : String) (openOk : Bool)
    (login : LoginOutcome) (plainOk : Bool) (rules : List RuleRun)
    (abortAfter : Option Nat) : Except String Nat :=
  if openOk then
    match authenticate account username password login plainOk with
    | .error e => .error e
    | .ok _ =>
      let ordered := sortRules rules
      let executed :=
        match abortAfter with
        | none => ordered
        | some n => ordered.take n
      .ok (runRules (executed.map (handle_mail_rule sniff supported today)))
  else .ok 0

/-- Claim C5: the SASL PLAIN fallback runs exactly on a
`UnicodeEncodeError` from the standard login, transmitting
`\x5c0<username>\x5c0<password>` UTF-8 encoded and then selecting INBOX; a
failed fallback or any other login exception becomes a `MailError` naming
the account, and then no rules are processed. -/
theorem auth_fallback_spec (account username password : String) (plainOk : Bool) :
    authenticate account username password .unicodeEncodeError true
        = .ok ⟨some ([0] ++ username.toUTF8.toList ++ [0] ++ password.toUTF8.toList),
            true⟩
    ∧ authenticate account username password .unicodeEncodeError false
        = .error ("Error while authenticating account " ++ account)
    ∧ authenticate account username password .otherError plainOk
        = .error ("Error while authenticating account " ++ account)
    ∧ authenticate account username password .success plainOk = .ok ⟨none, false⟩
    ∧ (∀ (sniff : List UInt8 → String) (supported : String → Bool) (today : Int)
        (rules : List RuleRun) (abortAfter : Option Nat),
        handle_mail_account sniff supported today account username password true
            .otherError plainOk rules abortAfter
          = .error ("Error while authenticating account " ++ account))
    ∧ (∀ (sniff : List UInt8 → String) (supported : String → Bool) (today : Int)
        (rules : List RuleRun) (abortAfter : Option Nat),
        handle_mail_account sniff supported today account username password true
            .unicodeEncodeError false rules abortAfter
          = .error ("Error while authenticating account " ++ account)) := by
  refine ⟨rfl, rfl, ?_, rfl, fun _ _ _ _ _ => rfl, fun _ _ _ _ _ => rfl⟩
  rfl

/-- `runRules` splits over list concatenation. -/
lemma runRules_append (xs ys : List (Except String Nat)) :
    runRules (xs ++ ys) = runRules xs + runRules ys := by
  induction xs with
  | nil => simp [runRules]
  | cons x rest ih =>
    cases x with
    | ok n => simp [runRules, ih, Nat.add_assoc]
    | error e => simp [runRules, ih]

/-- Claim C6: with the session open and authentication successful, the
rules run in ascending `order`; a rule that raises is caught (its
successors still run and still contribute), and the account total is the
sum of the counts of exactly the rules that completed without error. -/
theorem account_rule_isolation (sniff : List UInt8 → String)
    (supported : String → Bool) (today : Int) (account username password : String)
    (plainOk : Bool) (rules : List RuleRun) :
    handle_mail_account sniff supported today account username password true
        .success plainOk rules none
      = .ok (runRules ((sortRules rules).map (handle_mail_rule sniff supported today)))
    ∧ List.Sorted ruleLE (sortRules rules)
    ∧ (sortRules rules).Perm rules
    ∧ (∀ (e : String) (rest : List (Except String Nat)),
        runRules (.error e :: rest) = runRules rest)
    ∧ (∀ (n : Nat) (rest : List (Except String Nat)),
        runRules (.ok n :: rest) = n + runRules rest)
    ∧ (∀ results : List (Except String Nat),
        runRules results = (results.filterMap Except.toOption).sum) := by
  refine ⟨rfl, List.sorted_insertionSort ruleLE rules,
    List.perm_insertionSort ruleLE rules, fun _ _ => rfl, fun _ _ => rfl, ?_⟩
  intro results
  induction results with
  | nil => rfl
  | cons x rest ih =>
    cases x with
    | ok n => simp [runRules, Except.toOption, ih]
    | error e => simp [runRules, Except.toOption, ih]

/-- Claim C7: an authentication failure is re-raised as a `MailError`
naming the account; a mailbox-open failure is swallowed and the account
pass returns 0; a later non-`MailError` session failure is swallowed and
the pass returns the count accumulated over the rules run so far. -/
theorem account_error_kinds (sniff : List UInt8 → String)
    (supported : String → Bool) (today : Int) (account username password : String)
    (login : LoginOutcome) (plainOk : Bool) (rules : List RuleRun)
    (n : Nat) (abortAfter : Option Nat) :
    handle_mail_account sniff supported today account username password true
        .otherError plainOk rules abortAfter
      = .error ("Error while authenticating account " ++ account)
    ∧ handle_mail_account sniff supported today account username password true
        .unicodeEncodeError false rules abortAfter
      = .error ("Error while authenticating account " ++ account)
    ∧ handle_mail_account sniff supported today account username password false
        login plainOk rules abortAfter
      = .ok 0
    ∧ handle_mail_account sniff supported today account username password true
        .success plainOk rules (some n)
      = .ok (runRules (((sortRules rules).take n).map
          (handle_mail_rule sniff supported today))) :=
  ⟨rfl, rfl, rfl, rfl⟩

/-- Claim C10: when the rule's post-consume action fails after its messages
were processed, `handle_mail_rule` raises a rule-fatal `MailError` in place
of the accumulated count — the same run with a succeeding post-consume call
would have returned that count — so the rule contributes 0 to the
account-level total. -/
theorem post_consume_failure_discards_count (sniff : List UInt8 → String)
    (supported : String → Bool) (today : Int) (r : RuleRun)
    (hfolder : r.folderOk = true) (hfetch : r.fetchOk = true)
    (hpc : r.postConsumeOk = false) :
    handle_mail_rule sniff supported today r
        = .error "Rule: Error while processing post-consume actions"
    ∧ handle_mail_rule sniff supported today
        { r with postConsumeOk := true }
        = .ok (processMessages sniff supported r.rule r.msgs).2
    ∧ (∀ xs ys : List (Except String Nat),
        runRules (xs ++ handle_mail_rule sniff supported today r :: ys)
          = runRules (xs ++ ys)) := by
  have herr : handle_mail_rule sniff supported today r
      = .error "Rule: Error while processing post-consume actions" := by
    unfold handle_mail_rule
    rw [hfolder, hfetch, hpc]
    rfl
  refine ⟨herr, ?_, ?_⟩
  · unfold handle_mail_rule
    rw [show ({ r with postConsumeOk := true } : RuleRun).folderOk = true from hfolder,
      show ({ r with postConsumeOk := true } : RuleRun).fetchOk = true from hfetch]
    rfl
  · intro xs ys
    rw [herr, runRules_append, runRules_append]
    rfl

/-- A rule run that processes one supported attachment and then fails its
post-consume action. -/
def cRunPostFail : RuleRun :=
  { rule := cRuleAttach
    folderOk := true
    fetchOk := true
    msgs := [cMsgGood]
    postConsumeOk := false }

/-- Witness for claim C10: the concrete run dispatched one file, yet the
rule yields an error and adds nothing to the surrounding total. -/
theorem post_consume_failure_discards_count_witness :
    handle_mail_rule cSniff cSupported 19000 cRunPostFail
        = .error "Rule: Error while processing post-consume actions"
    ∧ handle_mail_rule cSniff cSupported 19000
        { cRunPostFail with postConsumeOk := true }
        = .ok (processMessages cSniff cSupported cRunPostFail.rule cRunPostFail.msgs).2
    ∧ (∀ xs ys : List (Except String Nat),
        runRules (xs ++ handle_mail_rule cSniff cSupported 19000 cRunPostFail :: ys)
          = runRules (xs ++ ys)) :=
  post_consume_failure_discards_count cSniff cSupported 19000 cRunPostFail
    rfl rfl rfl

end PaperlessMail
